import Mathlib

/-!
Verification development for the growth standardization and risk
classification engine (`backend/api/zscore_calculator.py`,
`backend/api/utils.py`, `backend/ml_models/predict_growth.py`).

The Python source is shallowly embedded: numeric values are modelled by `ℚ`
(the code's float arithmetic is exact on the rational operations exercised
here), Python `None` by `Option`, and raised exceptions by `Except String`.
The transcendental operations `math.log` and `**` are abstracted as function
parameters `lg`/`pw`; a concrete rational model `qpow`, faithful to Python
`**` on integer exponents, is used for closed evaluations.
-/

namespace Growth

/-- Python `str.lower()` (ASCII, which is all the code compares against).
Defined by structural recursion over the character list so that concrete
evaluations reduce in the kernel. -/
def pyLower (s : String) : String := ⟨s.data.map Char.toLower⟩

/-- One LMS reference entry: Box-Cox power `L`, median `M`,
coefficient of variation `S` (from `ZScoreCalculator`). -/
structure LMS where
  L : ℚ
  M : ℚ
  S : ℚ
deriving DecidableEq

/-- `HEIGHT_LMS['male']` from `zscore_calculator.py`, in the source's
(ascending) key order. -/
def heightMale : List (ℤ × LMS) :=
  [(0, ⟨1, 49.8842, 0.03795⟩), (1, ⟨1, 54.7244, 0.03557⟩),
   (2, ⟨1, 58.4249, 0.03424⟩), (3, ⟨1, 61.4292, 0.03328⟩),
   (6, ⟨1, 67.2516, 0.03257⟩), (9, ⟨1, 71.4818, 0.0322⟩),
   (12, ⟨1, 75.6709, 0.03164⟩), (18, ⟨1, 82.7761, 0.02922⟩),
   (24, ⟨1, 87.094, 0.02796⟩), (36, ⟨1, 95.2506, 0.02634⟩),
   (48, ⟨1, 102.352, 0.02544⟩), (60, ⟨1, 108.411, 0.02519⟩)]

/-- `HEIGHT_LMS['female']` from `zscore_calculator.py`. -/
def heightFemale : List (ℤ × LMS) :=
  [(0, ⟨1, 49.1477, 0.0379⟩), (1, ⟨1, 53.6872, 0.0364⟩),
   (2, ⟨1, 57.0673, 0.03568⟩), (3, ⟨1, 59.8029, 0.0352⟩),
   (6, ⟨1, 65.4606, 0.03424⟩), (9, ⟨1, 69.8135, 0.0339⟩),
   (12, ⟨1, 74.0, 0.03337⟩), (18, ⟨1, 80.698, 0.03192⟩),
   (24, ⟨1, 85.6346, 0.0309⟩), (36, ⟨1, 94.1076, 0.02917⟩),
   (48, ⟨1, 101.054, 0.02818⟩), (60, ⟨1, 107.418, 0.02777⟩)]

/-- `WEIGHT_LMS['male']` from `zscore_calculator.py`. -/
def weightMale : List (ℤ × LMS) :=
  [(0, ⟨0.3487, 3.3464, 0.14602⟩), (1, ⟨0.2297, 4.4709, 0.13395⟩),
   (2, ⟨0.197, 5.5675, 0.12385⟩), (3, ⟨0.1738, 6.3762, 0.11727⟩),
   (6, ⟨0.1553, 7.9322, 0.11316⟩), (9, ⟨0.1395, 8.9626, 0.1108⟩),
   (12, ⟨0.1268, 9.7289, 0.10958⟩), (18, ⟨0.1041, 10.7095, 0.11047⟩),
   (24, ⟨0.0876, 11.4805, 0.11228⟩), (36, ⟨0.067, 13.346, 0.11023⟩),
   (48, ⟨0.0549, 15.099, 0.10816⟩), (60, ⟨0.0448, 16.514, 0.10632⟩)]

/-- `WEIGHT_LMS['female']` from `zscore_calculator.py`. -/
def weightFemale : List (ℤ × LMS) :=
  [(0, ⟨0.3809, 3.2322, 0.14171⟩), (1, ⟨0.1714, 4.1873, 0.14478⟩),
   (2, ⟨0.096, 5.1282, 0.1327⟩), (3, ⟨0.0402, 5.8458, 0.1236⟩),
   (6, ⟨-0.005, 7.24, 0.11727⟩), (9, ⟨-0.043, 8.1466, 0.11364⟩),
   (12, ⟨-0.0756, 8.875, 0.11101⟩), (18, ⟨-0.1399, 9.8129, 0.10842⟩),
   (24, ⟨-0.1911, 10.5561, 0.10741⟩), (36, ⟨-0.2384, 12.108, 0.10632⟩),
   (48, ⟨-0.2689, 13.761, 0.10408⟩), (60, ⟨-0.2708, 15.351, 0.10115⟩)]

/-- The dict `HEIGHT_LMS`: keyed by gender, `none` models `KeyError`. -/
def HEIGHT_LMS (g : String) : Option (List (ℤ × LMS)) :=
  if g = "male" then some heightMale
  else if g = "female" then some heightFemale
  else none

/-- The dict `WEIGHT_LMS`: keyed by gender, `none` models `KeyError`. -/
def WEIGHT_LMS (g : String) : Option (List (ℤ × LMS)) :=
  if g = "male" then some weightMale
  else if g = "female" then some weightFemale
  else none

/-- Accumulator for Python's `min(xs, key=k)`: keeps the first element
attaining the minimal key (replaces only on strict decrease). -/
def pyMinByAux {α : Type} (k : α → ℕ) (best : α) : List α → α
  | [] => best
  | a :: as => pyMinByAux k (if k a < k best then a else best) as

/-- Python `min(xs, key=k)`; `none` models the `ValueError` on an empty
sequence. -/
def pyMinBy {α : Type} (k : α → ℕ) : List α → Option α
  | [] => none
  | a :: as => some (pyMinByAux k a as)

/-- The table selection of `_get_lms` (line 91): any metric other than
`'height'` selects the weight table. Gender is lowercased first (line 87). -/
def lmsEntries (gender metric : String) : Option (List (ℤ × LMS)) :=
  (if metric = "height" then HEIGHT_LMS else WEIGHT_LMS) (pyLower gender)

/-- `min(available_ages, key=lambda x: abs(x - age_months))` from
`_get_lms` (line 95); the table keys are listed in ascending order, so
`sorted` is the identity on them. -/
def closestBand (age : ℤ) (ages : List ℤ) : Option ℤ :=
  pyMinBy (fun x => (x - age).natAbs) ages

/-- `ZScoreCalculator._get_lms`: nearest-band lookup; every caught
exception (`KeyError` on an unknown gender, in particular) becomes the
`ValueError` "Invalid input parameters". -/
def getLms (age : ℤ) (gender metric : String) : Except String LMS :=
  match lmsEntries gender metric with
  | none => .error "Invalid input parameters"
  | some entries =>
    match closestBand age (entries.map Prod.fst) with
    | none => .error "Invalid input parameters"
    | some c =>
      match entries.find? (fun p => p.1 == c) with
      | none => .error "Invalid input parameters"
      | some p => .ok p.2

/-- Concrete rational model of Python `**`, faithful whenever the exponent
is an integer (the only case evaluated by theorems below: the height table
has `L = 1` throughout). On a non-integer exponent Python may produce an
irrational or complex value, which `ℚ` cannot represent; such cases are
kept abstract via the `pw` parameter instead. -/
def qpow (a b : ℚ) : ℚ :=
  if b.den = 1 then
    if 0 ≤ b.num then a ^ b.num.toNat else (a ^ (-b.num).toNat)⁻¹
  else 0

/-- Stand-in for `math.log` in closed evaluations; never reached on the
shipped tables (no entry has `L = 0`). -/
def log0 : ℚ → ℚ := fun _ => 0

/-- `ZScoreCalculator.calculate_z_score`, parametric in the models `pw` of
`**` and `lg` of `math.log`. The guards model the exceptions Python would
raise: `math.log` on a non-positive argument (`ValueError`) and division by
zero when `S = 0` (`ZeroDivisionError`); both are caught and re-raised as
the "Error calculating z-score" `ValueError` (lines 125-126). -/
def calculate_z_score (pw : ℚ → ℚ → ℚ) (lg : ℚ → ℚ) (value : ℚ) (age : ℤ)
    (gender metric : String) : Except String ℚ :=
  match getLms age gender metric with
  | .error e => .error ("Error calculating z-score: " ++ e)
  | .ok lms =>
    if lms.L = 0 then
      if value / lms.M ≤ 0 ∨ lms.S = 0 then
        .error "Error calculating z-score: math domain error"
      else .ok (lg (value / lms.M) / lms.S)
    else
      if lms.L * lms.S = 0 then
        .error "Error calculating z-score: float division by zero"
      else .ok ((pw (value / lms.M) lms.L - 1) / (lms.L * lms.S))

theorem pyMinByAux_mem {α : Type} (k : α → ℕ) (best : α) (l : List α) :
    pyMinByAux k best l ∈ best :: l := by
  induction l generalizing best with
  | nil => simp [pyMinByAux]
  | cons a as ih =>
    rw [pyMinByAux]
    split
    · have h := ih a
      simp only [List.mem_cons] at h ⊢
      tauto
    · have h := ih best
      simp only [List.mem_cons] at h ⊢
      tauto

theorem pyMinByAux_min {α : Type} (k : α → ℕ) (best : α) (l : List α) :
    ∀ b ∈ best :: l, k (pyMinByAux k best l) ≤ k b := by
  induction l generalizing best with
  | nil =>
    intro b hb
    simp only [List.mem_cons, List.not_mem_nil, or_false] at hb
    subst hb
    simp [pyMinByAux]
  | cons a as ih =>
    intro b hb
    rw [pyMinByAux]
    by_cases hc : k a < k best
    · simp only [if_pos hc]
      rcases List.mem_cons.mp hb with hba | hb'
      · rw [hba]
        exact le_trans (ih a a (List.mem_cons_self a as)) (le_of_lt hc)
      · exact ih a b hb'
    · simp only [if_neg hc]
      rcases List.mem_cons.mp hb with hba | hb'
      · rw [hba]
        exact ih best best (List.mem_cons_self best as)
      · rcases List.mem_cons.mp hb' with hba | hb''
        · rw [hba]
          exact le_trans (ih best best (List.mem_cons_self best as))
            (le_of_not_lt hc)
        · exact ih best b (List.mem_cons.mpr (Or.inr hb''))

theorem pyMinByAux_tie {α : Type} [LinearOrder α] (k : α → ℕ) (best : α)
    (l : List α) (hs : (best :: l).Pairwise (· < ·)) :
    ∀ b ∈ best :: l, k b = k (pyMinByAux k best l) → pyMinByAux k best l ≤ b := by
  induction l generalizing best with
  | nil =>
    intro b hb _
    simp only [List.mem_cons, List.not_mem_nil, or_false] at hb
    subst hb
    simp [pyMinByAux]
  | cons a as ih =>
    intro b hb hk
    obtain ⟨h1, h2⟩ := List.pairwise_cons.mp hs
    obtain ⟨h3, h4⟩ := List.pairwise_cons.mp h2
    rw [pyMinByAux] at hk ⊢
    by_cases hc : k a < k best
    · simp only [if_pos hc] at hk ⊢
      rcases List.mem_cons.mp hb with hba | hb'
      · exfalso
        rw [hba] at hk
        have hmin := pyMinByAux_min k a as a (List.mem_cons_self a as)
        omega
      · exact ih a h2 b hb' hk
    · simp only [if_neg hc] at hk ⊢
      have hp : (best :: as).Pairwise (· < ·) :=
        List.pairwise_cons.mpr
          ⟨fun x hx => h1 x (List.mem_cons_of_mem a hx), h4⟩
      rcases List.mem_cons.mp hb with hba | hb'
      · rw [hba] at hk ⊢
        exact ih best hp best (List.mem_cons_self best as) hk
      · rcases List.mem_cons.mp hb' with hba | hb''
        · rw [hba] at hk ⊢
          have hmb := pyMinByAux_min k best as best (List.mem_cons_self best as)
          have hle : k best ≤ k a := le_of_not_lt hc
          have hkb : k best = k (pyMinByAux k best as) := by omega
          have hlb := ih best hp best (List.mem_cons_self best as) hkb
          exact le_of_lt (lt_of_le_of_lt hlb (h1 a (List.mem_cons_self a as)))
        · exact ih best hp b (List.mem_cons.mpr (Or.inr hb'')) hk

theorem pyMinBy_spec {α : Type} [LinearOrder α] (k : α → ℕ) (a : α) (l : List α)
    (hs : (a :: l).Pairwise (· < ·)) :
    ∃ c, pyMinBy k (a :: l) = some c ∧ c ∈ a :: l ∧
      (∀ b ∈ a :: l, k c ≤ k b) ∧ (∀ b ∈ a :: l, k b = k c → c ≤ b) :=
  ⟨pyMinByAux k a l, rfl, pyMinByAux_mem k a l, pyMinByAux_min k a l,
    pyMinByAux_tie k a l hs⟩

theorem find?_fst_of_mem {β : Type} (l : List (ℤ × β)) (c : ℤ)
    (hc : c ∈ l.map Prod.fst) :
    ∃ e, l.find? (fun p => p.1 == c) = some e ∧ e.1 = c := by
  induction l with
  | nil => simp at hc
  | cons p ps ih =>
    by_cases h : p.1 = c
    · exact ⟨p, List.find?_cons_of_pos _ (by simp [h]), h⟩
    · have hc' : c ∈ ps.map Prod.fst := by
        simp only [List.map_cons, List.mem_cons] at hc
        tauto
      obtain ⟨e, he, he1⟩ := ih hc'
      exact ⟨e, by rw [List.find?_cons_of_neg _ (by simp [h])]; exact he, he1⟩

/-- The four concrete reference tables; every successful `getLms` lookup
returns the second component of one of these entries. -/
def allLmsEntries : List (ℤ × LMS) :=
  heightMale ++ heightFemale ++ weightMale ++ weightFemale

theorem allLmsEntries_sound :
    ∀ p ∈ allLmsEntries, 0 < p.2.M ∧ p.2.S ≠ 0 ∧ p.2.L ≠ 0 := by
  with_unfolding_all decide

theorem heightEntries_L_one : ∀ p ∈ heightMale ++ heightFemale, p.2.L = 1 := by
  with_unfolding_all decide

/-- Core resolution lemma: for a recognized gender (after lowercasing) and
metric, `getLms` selects the band of minimal absolute distance to the
requested age, breaking ties toward the lower band, and returns the entry
stored at that band. -/
theorem getLms_resolve (age : ℤ) (g m : String)
    (hg : pyLower g = "male" ∨ pyLower g = "female")
    (hm : m = "height" ∨ m = "weight") :
    ∃ entries c e,
      lmsEntries g m = some entries ∧
      entries ∈ [heightMale, heightFemale, weightMale, weightFemale] ∧
      closestBand age (entries.map Prod.fst) = some c ∧
      c ∈ entries.map Prod.fst ∧
      (∀ b ∈ entries.map Prod.fst, (c - age).natAbs ≤ (b - age).natAbs) ∧
      (∀ b ∈ entries.map Prod.fst, (b - age).natAbs = (c - age).natAbs → c ≤ b) ∧
      entries.find? (fun p => p.1 == c) = some e ∧ e.1 = c ∧ e ∈ entries ∧
      getLms age g m = .ok e.2 := by
  have htab : ∃ entries, lmsEntries g m = some entries ∧
      entries ∈ [heightMale, heightFemale, weightMale, weightFemale] := by
    rcases hm with rfl | rfl <;> rcases hg with hg | hg <;>
      simp [lmsEntries, HEIGHT_LMS, WEIGHT_LMS, hg]
  obtain ⟨entries, htab, hmem⟩ := htab
  have hsorted : (entries.map Prod.fst).Pairwise (· < ·) := by
    simp only [List.mem_cons, List.mem_singleton, List.not_mem_nil,
      or_false] at hmem
    rcases hmem with rfl | rfl | rfl | rfl <;> decide
  have hne : ∃ a l, entries.map Prod.fst = a :: l := by
    simp only [List.mem_cons, List.mem_singleton, List.not_mem_nil,
      or_false] at hmem
    rcases hmem with rfl | rfl | rfl | rfl <;> exact ⟨_, _, rfl⟩
  obtain ⟨a, l, hal⟩ := hne
  rw [hal] at hsorted
  obtain ⟨c, hc, hcm, hcmin, hctie⟩ :=
    pyMinBy_spec (fun x => (x - age).natAbs) a l hsorted
  rw [← hal] at hcm hcmin hctie
  have hcb : closestBand age (entries.map Prod.fst) = some c := by
    rw [closestBand, hal]; exact hc
  obtain ⟨e, hfind, he1⟩ := find?_fst_of_mem entries c hcm
  refine ⟨entries, c, e, htab, hmem, hcb, hcm, hcmin, hctie, hfind, he1,
    List.mem_of_find?_eq_some hfind, ?_⟩
  simp only [getLms, htab, hcb, hfind]

theorem qpow_one (a : ℚ) : qpow a 1 = a := by
  norm_num [qpow]

/-- **C5**: for every recognized sex and metric and every integer
`age_months`, the reference-table lookup returns the entry whose age band
has the minimum absolute difference from the requested age, breaking ties
toward the lower band, and the selected band is never farther from the
query than any other band in the table.  Determinism (identical inputs
yield the identical entry) is immediate: the embedded lookup is a pure
function of its arguments. -/
theorem C5_lookup_nearest_band (age : ℤ) (g m : String)
    (hg : pyLower g = "male" ∨ pyLower g = "female")
    (hm : m = "height" ∨ m = "weight") :
    ∃ entries c e,
      lmsEntries g m = some entries ∧
      closestBand age (entries.map Prod.fst) = some c ∧
      c ∈ entries.map Prod.fst ∧
      (∀ b ∈ entries.map Prod.fst, (c - age).natAbs ≤ (b - age).natAbs) ∧
      (∀ b ∈ entries.map Prod.fst,
        (b - age).natAbs = (c - age).natAbs → c ≤ b) ∧
      entries.find? (fun p => p.1 == c) = some e ∧ e.1 = c ∧
      getLms age g m = .ok e.2 := by
  obtain ⟨entries, c, e, h1, _, h3, h4, h5, h6, h7, h8, _, h10⟩ :=
    getLms_resolve age g m hg hm
  exact ⟨entries, c, e, h1, h3, h4, h5, h6, h7, h8, h10⟩

theorem C5_lookup_nearest_band_witness :
    (pyLower "male" = "male" ∨ pyLower "male" = "female") ∧
    ("height" = "height" ∨ "height" = "weight") ∧
    (∃ entries c e,
      lmsEntries "male" "height" = some entries ∧
      closestBand 7 (entries.map Prod.fst) = some c ∧
      c ∈ entries.map Prod.fst ∧
      (∀ b ∈ entries.map Prod.fst, (c - 7).natAbs ≤ (b - 7).natAbs) ∧
      (∀ b ∈ entries.map Prod.fst,
        (b - 7).natAbs = (c - 7).natAbs → c ≤ b) ∧
      entries.find? (fun p => p.1 == c) = some e ∧ e.1 = c ∧
      getLms 7 "male" "height" = .ok e.2) :=
  ⟨Or.inl rfl, Or.inl rfl,
    C5_lookup_nearest_band 7 "male" "height" (Or.inl rfl) (Or.inl rfl)⟩

/-- **C1**: for every valid input, `calculate_z_score` returns
`lg (value/M) / S` when the looked-up `L` is zero and
`(pw (value/M) L − 1) / (L·S)` otherwise, where `(L, M, S)` is exactly the
entry produced by the reference-table lookup for `(sex, metric, age)` and
`pw`, `lg` are the models of Python `**` and `math.log`. -/
theorem C1_standardize_formula (pw : ℚ → ℚ → ℚ) (lg : ℚ → ℚ) (value : ℚ)
    (age : ℤ) (g m : String)
    (hg : pyLower g = "male" ∨ pyLower g = "female")
    (hm : m = "height" ∨ m = "weight") (hv : 0 < value) :
    ∃ lms, getLms age g m = .ok lms ∧
      calculate_z_score pw lg value age g m =
        .ok (if lms.L = 0 then lg (value / lms.M) / lms.S
             else (pw (value / lms.M) lms.L - 1) / (lms.L * lms.S)) := by
  obtain ⟨entries, c, e, htab, hmem, hcb, hcm, hmin, htie, hfind, he1,
    hemem, hok⟩ := getLms_resolve age g m hg hm
  have hall : e ∈ allLmsEntries := by
    simp only [List.mem_cons, List.mem_singleton, List.not_mem_nil,
      or_false] at hmem
    rcases hmem with rfl | rfl | rfl | rfl <;>
      · simp only [allLmsEntries, List.mem_append]
        tauto
  obtain ⟨hM, hS, hL⟩ := allLmsEntries_sound e hall
  refine ⟨e.2, hok, ?_⟩
  simp only [calculate_z_score, hok]
  rw [if_neg hL, if_neg hL, if_neg (mul_ne_zero hL hS)]

theorem C1_standardize_formula_witness :
    (pyLower "male" = "male" ∨ pyLower "male" = "female") ∧
    ("height" = "height" ∨ "height" = "weight") ∧ (0 : ℚ) < 75.5 ∧
    (∃ lms, getLms 12 "male" "height" = .ok lms ∧
      calculate_z_score qpow log0 75.5 12 "male" "height" =
        .ok (if lms.L = 0 then log0 (75.5 / lms.M) / lms.S
             else (qpow (75.5 / lms.M) lms.L - 1) / (lms.L * lms.S))) :=
  ⟨Or.inl rfl, Or.inl rfl, by norm_num,
    C1_standardize_formula qpow log0 75.5 12 "male" "height"
      (Or.inl rfl) (Or.inl rfl) (by norm_num)⟩

/-- **C7 counterexample**: the claim says the lookup fails with a
`DomainError` for every metric outside `{height, weight}`; in fact the
unrecognized metric `"bmi"` raises nothing and silently returns the entry
of the *weight* table at band 12. -/
theorem C7_counterexample :
    getLms 12 "male" "bmi" = .ok ⟨0.1268, 9.7289, 0.10958⟩ ∧
    "bmi" ≠ "height" ∧ "bmi" ≠ "weight" :=
  ⟨by with_unfolding_all rfl, by decide, by decide⟩

/-- **C7 amended**: the lookup raises the `ValueError` (the code's
`DomainError`) precisely when the lowercased sex is neither `"male"` nor
`"female"`; the metric is never validated — any metric other than
`"height"` silently selects the weight table. -/
theorem C7_gender_error_metric_defaults :
    (∀ (age : ℤ) (g m : String), pyLower g ≠ "male" → pyLower g ≠ "female" →
      getLms age g m = .error "Invalid input parameters") ∧
    (∀ (age : ℤ) (g m : String), m ≠ "height" →
      getLms age g m = getLms age g "weight") := by
  constructor
  · intro age g m h1 h2
    have hnone : lmsEntries g m = none := by
      rw [lmsEntries]
      split <;> simp [HEIGHT_LMS, WEIGHT_LMS, h1, h2]
    rw [getLms, hnone]
  · intro age g m hm
    have heq : lmsEntries g m = lmsEntries g "weight" := by
      rw [lmsEntries, lmsEntries, if_neg hm, if_neg (by decide)]
    rw [getLms, getLms, heq]

theorem C7_gender_error_metric_defaults_witness :
    (pyLower "Dog" ≠ "male" ∧ pyLower "Dog" ≠ "female" ∧
      getLms 5 "Dog" "height" = .error "Invalid input parameters") ∧
    ("bmi" ≠ "height" ∧ getLms 12 "male" "bmi" = getLms 12 "male" "weight") :=
  ⟨⟨by decide, by decide,
      C7_gender_error_metric_defaults.1 5 "Dog" "height" (by decide)
        (by decide)⟩,
    ⟨by decide, C7_gender_error_metric_defaults.2 12 "male" "bmi" (by decide)⟩⟩

/-- **C8 counterexample**: the claim says `standardize` fails with a
`DomainError` whenever `value ≤ 0`; in fact at `value = 0` (12 months,
male, height, where `L = 1`, `S = 0.03164`) it raises nothing and returns
the numeric score `(0/M − 1)/(1·S) = −25000/791 ≈ −31.6`. -/
theorem C8_counterexample :
    calculate_z_score qpow log0 0 12 "male" "height" = .ok (-25000 / 791) := by
  with_unfolding_all rfl

/-- **C8 amended**: `calculate_z_score` performs no validation of the
measurement value: for metric height (every table entry has `L = 1`) it
returns the numeric score `(value/M − 1)/(1·S)` for *every* value,
non-positive included; and the `S = 0` and `L = 0` (log-argument) failure
conditions of the claim are unreachable, since no shipped table entry has
`L = 0` or `S = 0`.  A `ValueError` still occurs for an unrecognized sex. -/
theorem C8_no_value_validation :
    (∀ (lg : ℚ → ℚ) (value : ℚ) (age : ℤ) (g : String),
      pyLower g = "male" ∨ pyLower g = "female" →
      ∃ lms, getLms age g "height" = .ok lms ∧ lms.L = 1 ∧
        calculate_z_score qpow lg value age g "height" =
          .ok ((value / lms.M - 1) / (1 * lms.S))) ∧
    (∀ p ∈ allLmsEntries, p.2.L ≠ 0 ∧ p.2.S ≠ 0) := by
  constructor
  · intro lg value age g hg
    obtain ⟨entries, c, e, htab, hmem, hcb, hcm, hmin, htie, hfind, he1,
      hemem, hok⟩ := getLms_resolve age g "height" hg (Or.inl rfl)
    have hent : entries = heightMale ∨ entries = heightFemale := by
      rcases hg with hg | hg <;>
        · rw [lmsEntries, if_pos rfl, HEIGHT_LMS, hg] at htab
          simp at htab
          tauto
    have hL1 : e.2.L = 1 := by
      apply heightEntries_L_one
      rcases hent with rfl | rfl <;>
        · simp only [List.mem_append]
          tauto
    have hS : e.2.S ≠ 0 := by
      refine (allLmsEntries_sound e ?_).2.1
      rcases hent with rfl | rfl <;>
        · simp only [allLmsEntries, List.mem_append]
          tauto
    refine ⟨e.2, hok, hL1, ?_⟩
    simp only [calculate_z_score, hok, hL1]
    rw [if_neg (one_ne_zero), if_neg (by simpa using hS), qpow_one]
  · intro p hp
    exact ⟨(allLmsEntries_sound p hp).2.2, (allLmsEntries_sound p hp).2.1⟩

theorem C8_no_value_validation_witness :
    (pyLower "female" = "male" ∨ pyLower "female" = "female") ∧
    (∃ lms, getLms 3 "female" "height" = .ok lms ∧ lms.L = 1 ∧
      calculate_z_score qpow log0 (-5) 3 "female" "height" =
        .ok ((-5 / lms.M - 1) / (1 * lms.S))) ∧
    ((0 : ℤ), (⟨1, 49.8842, 0.03795⟩ : LMS)).2.L ≠ 0 :=
  ⟨Or.inr rfl,
    C8_no_value_validation.1 log0 (-5) 3 "female" (Or.inr rfl),
    (C8_no_value_validation.2 (0, ⟨1, 49.8842, 0.03795⟩)
      (by rw [allLmsEntries, heightMale]
          exact List.mem_append.mpr (Or.inl (List.mem_cons_self _ _)))).1⟩

/-- Prefix test on character lists: does `l` start with `n`? -/
def listStartsWith : List Char → List Char → Bool
  | _, [] => true
  | [], _ :: _ => false
  | a :: as, b :: bs => a == b && listStartsWith as bs

/-- Python's `needle in haystack` substring test, by structural recursion
over the haystack. -/
def listContains : List Char → List Char → Bool
  | [], needle => listStartsWith [] needle
  | a :: as, needle => listStartsWith (a :: as) needle || listContains as needle

/-- Python's `needle in haystack` on strings. -/
def strContains (hay needle : String) : Bool := listContains hay.data needle.data

/-- The risk-label normalization of `predict_growth_risk` (utils.py lines
349-356), the source's redundant disjuncts kept verbatim. -/
def mapRiskStatus (risk : String) : String :=
  if strContains risk "stunt" then "stunted"
  else if strContains risk "underweight" || strContains risk "under" ||
      strContains risk "severely_underweight" then "underweight"
  else if strContains risk "overweight" || strContains risk "over" ||
      strContains risk "obese" || strContains risk "severely_overweight" then
    "overweight"
  else "normal"

theorem listStartsWith_nil (l : List Char) : listStartsWith l [] = true := by
  cases l <;> rfl

theorem listStartsWith_of_append (l n m : List Char)
    (h : listStartsWith l (n ++ m) = true) : listStartsWith l n = true := by
  induction n generalizing l with
  | nil => exact listStartsWith_nil l
  | cons b bs ih =>
    cases l with
    | nil => simp [listStartsWith] at h
    | cons a as =>
      rw [List.cons_append, listStartsWith, Bool.and_eq_true] at h
      rw [listStartsWith, Bool.and_eq_true]
      exact ⟨h.1, ih as h.2⟩

theorem listStartsWith_trans (l n m : List Char)
    (h1 : listStartsWith l n = true) (h2 : listStartsWith n m = true) :
    listStartsWith l m = true := by
  induction m generalizing l n with
  | nil => exact listStartsWith_nil l
  | cons c cs ih =>
    cases n with
    | nil => simp [listStartsWith] at h2
    | cons b bs =>
      cases l with
      | nil => simp [listStartsWith] at h1
      | cons a as =>
        rw [listStartsWith, Bool.and_eq_true] at h1 h2 ⊢
        refine ⟨?_, ih as bs h1.2 h2.2⟩
        have hab : a = b := by simpa using h1.1
        have hbc : b = c := by simpa using h2.1
        simp [hab, hbc]

theorem listContains_of_startsWith (l n sub : List Char)
    (h1 : listStartsWith l n = true) (h2 : listContains n sub = true) :
    listContains l sub = true := by
  induction n generalizing l with
  | nil =>
    cases l with
    | nil => exact h2
    | cons a as =>
      rw [listContains] at h2
      rw [listContains, Bool.or_eq_true]
      cases sub with
      | nil => exact Or.inl (listStartsWith_nil _)
      | cons c cs => simp [listStartsWith] at h2
  | cons b bs ih =>
    cases l with
    | nil => simp [listStartsWith] at h1
    | cons a as =>
      rw [listStartsWith, Bool.and_eq_true] at h1
      rw [listContains, Bool.or_eq_true] at h2
      rw [listContains, Bool.or_eq_true]
      rcases h2 with h2 | h2
      · exact Or.inl (listStartsWith_trans (a :: as) (b :: bs) sub
          (by rw [listStartsWith, Bool.and_eq_true]; exact h1) h2)
      · exact Or.inr (ih as h1.2 h2)

theorem listContains_trans (l big small : List Char)
    (hb : listContains big small = true) (hl : listContains l big = true) :
    listContains l small = true := by
  induction l with
  | nil =>
    cases big with
    | nil => exact hb
    | cons b bs => simp [listContains, listStartsWith] at hl
  | cons a as ih =>
    rw [listContains, Bool.or_eq_true] at hl
    rcases hl with hl | hl
    · exact listContains_of_startsWith (a :: as) big small hl hb
    · rw [listContains, Bool.or_eq_true]
      exact Or.inr (ih hl)

theorem strContains_trans (s big small : String)
    (hb : strContains big small = true) (hs : strContains s big = true) :
    strContains s small = true :=
  listContains_trans s.data big.data small.data hb hs

/-- **C4**: label normalization maps any raw label containing `"stunt"` to
`stunted` (even if it also contains `"under"`), else any label containing
`"under"` to `underweight`, else any label containing `"over"` or
`"obese"` to `overweight`, else to `normal`; and it is idempotent on the
four canonical category strings. -/
theorem C4_label_normalization :
    (∀ s : String, strContains s "stunt" = true →
      mapRiskStatus s = "stunted") ∧
    (∀ s : String, strContains s "stunt" = false →
      strContains s "under" = true → mapRiskStatus s = "underweight") ∧
    (∀ s : String, strContains s "stunt" = false →
      strContains s "under" = false →
      (strContains s "over" = true ∨ strContains s "obese" = true) →
      mapRiskStatus s = "overweight") ∧
    (∀ s : String, strContains s "stunt" = false →
      strContains s "under" = false → strContains s "over" = false →
      strContains s "obese" = false → mapRiskStatus s = "normal") ∧
    mapRiskStatus "stunted" = "stunted" ∧
    mapRiskStatus "underweight" = "underweight" ∧
    mapRiskStatus "overweight" = "overweight" ∧
    mapRiskStatus "normal" = "normal" := by
  have hu1 : ∀ s : String, strContains s "under" = false →
      strContains s "underweight" = false := by
    intro s h
    cases hx : strContains s "underweight" with
    | false => rfl
    | true =>
      have := strContains_trans s "underweight" "under" (by decide) hx
      rw [h] at this
      exact absurd this (by simp)
  have hu2 : ∀ s : String, strContains s "under" = false →
      strContains s "severely_underweight" = false := by
    intro s h
    cases hx : strContains s "severely_underweight" with
    | false => rfl
    | true =>
      have := strContains_trans s "severely_underweight" "under" (by decide) hx
      rw [h] at this
      exact absurd this (by simp)
  have ho1 : ∀ s : String, strContains s "over" = false →
      strContains s "overweight" = false := by
    intro s h
    cases hx : strContains s "overweight" with
    | false => rfl
    | true =>
      have := strContains_trans s "overweight" "over" (by decide) hx
      rw [h] at this
      exact absurd this (by simp)
  have ho2 : ∀ s : String, strContains s "over" = false →
      strContains s "severely_overweight" = false := by
    intro s h
    cases hx : strContains s "severely_overweight" with
    | false => rfl
    | true =>
      have := strContains_trans s "severely_overweight" "over" (by decide) hx
      rw [h] at this
      exact absurd this (by simp)
  refine ⟨?_, ?_, ?_, ?_, by decide, by decide, by decide, by decide⟩
  · intro s h
    rw [mapRiskStatus, if_pos h]
  · intro s h1 h2
    simp [mapRiskStatus, h1, h2]
  · intro s h1 h2 h3
    rcases h3 with h3 | h3 <;>
      simp [mapRiskStatus, h1, h2, hu1 s h2, hu2 s h2, h3]
  · intro s h1 h2 h3 h4
    simp [mapRiskStatus, h1, h2, hu1 s h2, hu2 s h2, h3, h4,
      ho1 s h3, ho2 s h3]

theorem C4_label_normalization_witness :
    (strContains "stunted_under" "stunt" = true ∧
      mapRiskStatus "stunted_under" = "stunted") ∧
    (strContains "severely_underweight" "stunt" = false ∧
      strContains "severely_underweight" "under" = true ∧
      mapRiskStatus "severely_underweight" = "underweight") ∧
    (strContains "obese_risk" "stunt" = false ∧
      strContains "obese_risk" "under" = false ∧
      strContains "obese_risk" "obese" = true ∧
      mapRiskStatus "obese_risk" = "overweight") ∧
    (strContains "healthy" "stunt" = false ∧
      strContains "healthy" "under" = false ∧
      strContains "healthy" "over" = false ∧
      strContains "healthy" "obese" = false ∧
      mapRiskStatus "healthy" = "normal") :=
  ⟨⟨by decide, C4_label_normalization.1 "stunted_under" (by decide)⟩,
    ⟨by decide, by decide,
      C4_label_normalization.2.1 "severely_underweight" (by decide)
        (by decide)⟩,
    ⟨by decide, by decide, by decide,
      C4_label_normalization.2.2.1 "obese_risk" (by decide) (by decide)
        (Or.inr (by decide))⟩,
    ⟨by decide, by decide, by decide, by decide,
      C4_label_normalization.2.2.2.1 "healthy" (by decide) (by decide)
        (by decide) (by decide)⟩⟩

/-- The seven-field feature vector assembled at prediction time
(utils.py lines 289-297). -/
structure FeatureVec where
  age_months : ℚ
  gender_encoded : ℚ
  height_cm : ℚ
  weight_kg : ℚ
  bmi : ℚ
  z_score_weight : ℚ
  z_score_height : ℚ
deriving DecidableEq

/-- The ordered (name, value) pairs of the prediction-time feature dict,
in the source's insertion order. -/
def FeatureVec.toPairs (f : FeatureVec) : List (String × ℚ) :=
  [("age_months", f.age_months), ("gender_encoded", f.gender_encoded),
   ("height_cm", f.height_cm), ("weight_kg", f.weight_kg), ("bmi", f.bmi),
   ("z_score_weight", f.z_score_weight), ("z_score_height", f.z_score_height)]

/-- The training-time feature column list (`prepare_features`, utils.py
lines 89-90). -/
def trainingFeatureOrder : List String :=
  ["age_months", "gender_encoded", "height_cm", "weight_kg", "bmi",
   "z_score_weight", "z_score_height"]

/-- Training-time gender classes: `LabelEncoder.fit_transform` sorts the
distinct values {"male", "female"} of the gender column alphabetically
(`load_growth_data` produces exactly these two tokens). -/
def trainGenderClasses : List String := ["female", "male"]

/-- Training-time gender encoding: index into the sorted class list. -/
def trainGenderEncode (g : String) : ℕ := trainGenderClasses.indexOf g

/-- Training-time BMI (`load_growth_data` line 63, `prepare_features`
line 86): `weight_kg / ((height_cm/100) ** 2)`. -/
def trainBmi (weight height : ℚ) : ℚ := weight / ((height / 100) ^ 2)

/-- The opaque trained-classifier artifacts consumed at prediction time:
the label-encoder classes, `int(y_pred[0])` and the probability row
`y_proba[0]`. -/
structure ModelOracle where
  classes : List String
  predIdx : ℤ
  probas : List ℚ

/-- `int(np.argmax(l))` accumulator: first index of the maximum. -/
def npArgmaxGo : List ℚ → ℚ → ℕ → ℕ → ℕ
  | [], _, bi, _ => bi
  | a :: as, bv, bi, i =>
    if bv < a then npArgmaxGo as a i (i + 1) else npArgmaxGo as bv bi (i + 1)

/-- `int(np.argmax(l))`: index of the first maximal element. -/
def npArgmax : List ℚ → ℕ
  | [] => 0
  | a :: as => npArgmaxGo as a 0 1

/-- `np.max`; `none` models the exception on an empty array. -/
def npMax : List ℚ → Option ℚ
  | [] => none
  | a :: as => some (as.foldl max a)

/-- The anomaly rule of utils.py lines 366-370 on the resolved scores
(both scores are non-`None` by that point, so the `is not None` guards
are satisfied). -/
def isAnomalyFlag (confidence zw zh : ℚ) : Bool :=
  decide (confidence < 0.6) || decide (3 < |zw|) || decide (3 < |zh|)

/-- Input record of `predict_growth_risk`; `none` is Python `None`. -/
structure PredictInput where
  age_months : ℤ
  gender : String
  height_cm : Option ℚ
  weight_kg : Option ℚ
  z_score_weight : Option ℚ
  z_score_height : Option ℚ

/-- Lines 240-261 of utils.py: compute a missing z-score when the raw
measurement is present; if the computation raises, the handler substitutes
0 for every z-score still `None` (a weight score already assigned before
the height computation raised is kept). -/
def resolveZ (pw : ℚ → ℚ → ℚ) (lg : ℚ → ℚ) (age : ℤ) (gender : String)
    (inp : PredictInput) : Option ℚ × Option ℚ :=
  match inp.z_score_weight, inp.weight_kg with
  | none, some w =>
    match calculate_z_score pw lg w age gender "weight" with
    | .error _ =>
      (some 0,
        match inp.z_score_height with | none => some 0 | some z => some z)
    | .ok zw =>
      match inp.z_score_height, inp.height_cm with
      | none, some h =>
        match calculate_z_score pw lg h age gender "height" with
        | .error _ => (some zw, some 0)
        | .ok zh => (some zw, some zh)
      | zh, _ => (some zw, zh)
  | zw, _ =>
    match inp.z_score_height, inp.height_cm with
    | none, some h =>
      match calculate_z_score pw lg h age gender "height" with
      | .error _ =>
        ((match zw with | none => some 0 | some z => some z), some 0)
      | .ok zh => (zw, some zh)
    | zh, _ => (zw, zh)

/-- The result dictionary of `predict_growth_risk`: the success dict
(status `"success"`) or the outer-handler dict (status `"error"`, message
only).  The partially-updated error dict of the inner handler (lines
390-396) is unreachable: that handler evaluates `traceback.format_exc()`
first, and `traceback` is never imported, so the resulting `NameError`
always propagates to the outer handler instead. -/
inductive PredictResult where
  | success (risk_status : String) (confidence : ℚ) (is_anomaly : Bool)
      (feature_vector : FeatureVec)
  | error (message : String)

/-- The value under the `'status'` key of the returned dict. -/
def PredictResult.status : PredictResult → String
  | .success .. => "success"
  | .error _ => "error"

/-- The body of `predict_growth_risk` (utils.py lines 214-398): type
coercions, validation, z-score resolution, required-measurement check,
model load, BMI/feature construction, prediction and risk mapping.  Each
Python exception is an `Except.error` carrying (a prefix of) the message
raised there; `oracle? = none` models a failed model/encoder load. -/
def predictCore (pw : ℚ → ℚ → ℚ) (lg : ℚ → ℚ) (oracle? : Option ModelOracle)
    (inp : PredictInput) : Except String (String × ℚ × Bool × FeatureVec) :=
  if ¬(pyLower inp.gender = "male" ∨ pyLower inp.gender = "female") then
    .error "Gender must be 'male' or 'female'"
  else if inp.age_months < 0 ∨ 60 < inp.age_months then
    .error "Age must be between 0 and 60 months"
  else
    match resolveZ pw lg inp.age_months (pyLower inp.gender) inp with
    | (zwOpt, zhOpt) =>
      match inp.height_cm, inp.weight_kg with
      | some h, some w =>
        match oracle? with
        | none => .error "Failed to load model or encoder"
        | some oracle =>
          if h = 0 then .error "Error preparing features"
          else
            match npMax oracle.probas with
            | none => .error "name 'traceback' is not defined"
            | some confidence =>
              if oracle.classes.length = 0 then
                .error "name 'traceback' is not defined"
              else
                match oracle.classes.get?
                    (if oracle.predIdx < 0 ∨
                        (oracle.classes.length : ℤ) ≤ oracle.predIdx then
                      npArgmax oracle.probas
                    else oracle.predIdx.toNat) with
                | none => .error "name 'traceback' is not defined"
                | some cls =>
                  .ok (mapRiskStatus (pyLower cls), confidence,
                    isAnomalyFlag confidence (zwOpt.getD 0) (zhOpt.getD 0),
                    ⟨(inp.age_months : ℚ),
                      if pyLower inp.gender = "male" then 1 else 0, h, w,
                      w / ((h / 100) * (h / 100)), zwOpt.getD 0,
                      zhOpt.getD 0⟩)
      | _, _ => .error "Both height_cm and weight_kg are required for prediction"

/-- `predict_growth_risk`: the outer `try/except` (lines 400-404) turns
every escaped exception into the `{'status': 'error', 'message': ...}`
dict. -/
def predict_growth_risk (pw : ℚ → ℚ → ℚ) (lg : ℚ → ℚ)
    (oracle? : Option ModelOracle) (inp : PredictInput) : PredictResult :=
  match predictCore pw lg oracle? inp with
  | .ok (r, c, a, fv) => .success r c a fv
  | .error m => .error m

theorem predictCore_ok_inv (pw : ℚ → ℚ → ℚ) (lg : ℚ → ℚ)
    (o? : Option ModelOracle) (inp : PredictInput)
    (r : String) (c : ℚ) (a : Bool) (fv : FeatureVec)
    (h : predictCore pw lg o? inp = .ok (r, c, a, fv)) :
    a = isAnomalyFlag c fv.z_score_weight fv.z_score_height ∧
    fv.toPairs.map Prod.fst = trainingFeatureOrder ∧
    (∃ h0 w0, inp.height_cm = some h0 ∧ inp.weight_kg = some w0 ∧
      fv.height_cm = h0 ∧ fv.weight_kg = w0 ∧
      fv.bmi = w0 / ((h0 / 100) * (h0 / 100))) ∧
    fv.gender_encoded = (if pyLower inp.gender = "male" then 1 else 0) ∧
    fv.age_months = (inp.age_months : ℚ) := by
  unfold predictCore at h
  repeat' split at h
  all_goals try (cases h)
  all_goals refine ⟨rfl, rfl, ⟨_, _, ?_, ?_, rfl, rfl, rfl⟩, ?_, rfl⟩ <;>
    simp_all

theorem predict_success_inv (pw : ℚ → ℚ → ℚ) (lg : ℚ → ℚ)
    (o? : Option ModelOracle) (inp : PredictInput)
    (r : String) (c : ℚ) (a : Bool) (fv : FeatureVec)
    (h : predict_growth_risk pw lg o? inp = .success r c a fv) :
    predictCore pw lg o? inp = .ok (r, c, a, fv) := by
  rw [predict_growth_risk] at h
  split at h
  · next r' c' a' fv' heq =>
    injection h with h1 h2 h3 h4
    rw [← h1, ← h2, ← h3, ← h4]
    exact heq
  · cases h

/-- A concrete oracle for closed evaluations: classes `["normal"]` is not
used when, as here, `predIdx` is in range of a longer class list. -/
def oracleEx : ModelOracle := ⟨["normal", "stunted"], 0, [7/10, 3/10]⟩

/-- A concrete full input for closed evaluations. -/
def inputEx : PredictInput := ⟨12, "male", some 75.5, some 9.8, some 1, some 1⟩

/-- The feature vector `predict_growth_risk` builds for `inputEx`. -/
def fvEx : FeatureVec :=
  ⟨12, 1, 75.5, 9.8, 9.8 / ((75.5 / 100) * (75.5 / 100)), 1, 1⟩

/-- **C2**: the prediction-time feature dict has exactly the field names
and order of the training-time schema (`prepare_features`); the gender
encoding agrees (training `LabelEncoder` over {"female","male"} gives
female ↦ 0, male ↦ 1, prediction uses `1 if male else 0`); and for every
successful prediction the vector carries the raw inputs with
`bmi = weight/(height/100)²`, the training formula. -/
theorem C2_feature_schema :
    (∀ fv : FeatureVec, fv.toPairs.map Prod.fst = trainingFeatureOrder) ∧
    trainGenderEncode "male" = 1 ∧ trainGenderEncode "female" = 0 ∧
    (∀ (pw : ℚ → ℚ → ℚ) (lg : ℚ → ℚ) (o? : Option ModelOracle)
      (inp : PredictInput) (r : String) (c : ℚ) (a : Bool) (fv : FeatureVec),
      predict_growth_risk pw lg o? inp = .success r c a fv →
      fv.gender_encoded = (if pyLower inp.gender = "male" then 1 else 0) ∧
      fv.age_months = (inp.age_months : ℚ) ∧
      (∃ h0 w0, inp.height_cm = some h0 ∧ inp.weight_kg = some w0 ∧
        fv.height_cm = h0 ∧ fv.weight_kg = w0 ∧ fv.bmi = trainBmi w0 h0)) := by
  refine ⟨fun fv => rfl, rfl, rfl, ?_⟩
  intro pw lg o? inp r c a fv h
  obtain ⟨_, _, ⟨h0, w0, hh, hw, hfh, hfw, hbmi⟩, hg, ha⟩ :=
    predictCore_ok_inv pw lg o? inp r c a fv
      (predict_success_inv pw lg o? inp r c a fv h)
  refine ⟨hg, ha, h0, w0, hh, hw, hfh, hfw, ?_⟩
  rw [hbmi, trainBmi, pow_two]

theorem C2_feature_schema_witness :
    fvEx.toPairs.map Prod.fst = trainingFeatureOrder ∧
    predict_growth_risk qpow log0 (some oracleEx) inputEx =
      .success "normal" (7/10) false fvEx ∧
    fvEx.gender_encoded = (if pyLower inputEx.gender = "male" then 1 else 0) ∧
    fvEx.age_months = (inputEx.age_months : ℚ) ∧
    (∃ h0 w0, inputEx.height_cm = some h0 ∧ inputEx.weight_kg = some w0 ∧
      fvEx.height_cm = h0 ∧ fvEx.weight_kg = w0 ∧
      fvEx.bmi = trainBmi w0 h0) := by
  have hrun : predict_growth_risk qpow log0 (some oracleEx) inputEx =
      .success "normal" (7/10) false fvEx := by
    with_unfolding_all rfl
  obtain ⟨hg, ha, hex⟩ :=
    C2_feature_schema.2.2.2 qpow log0 (some oracleEx) inputEx "normal"
      (7/10) false fvEx hrun
  exact ⟨C2_feature_schema.1 fvEx, hrun, hg, ha, hex⟩

/-- **C3**: the anomaly flag is true iff confidence < 0.6, or the absolute
standardized height score exceeds 3, or the absolute standardized weight
score exceeds 3; each disjunct is independently sufficient; and every
successful classification result carries exactly this flag, computed on
the confidence and the resolved scores stored in its feature vector. -/
theorem C3_anomaly_rule :
    (∀ confidence zw zh : ℚ, isAnomalyFlag confidence zw zh = true ↔
      (confidence < 0.6 ∨ 3 < |zh| ∨ 3 < |zw|)) ∧
    (∀ confidence zw zh : ℚ, confidence < 0.6 →
      isAnomalyFlag confidence zw zh = true) ∧
    (∀ confidence zw zh : ℚ, 3 < |zh| →
      isAnomalyFlag confidence zw zh = true) ∧
    (∀ confidence zw zh : ℚ, 3 < |zw| →
      isAnomalyFlag confidence zw zh = true) ∧
    (∀ (pw : ℚ → ℚ → ℚ) (lg : ℚ → ℚ) (o? : Option ModelOracle)
      (inp : PredictInput) (r : String) (c : ℚ) (a : Bool) (fv : FeatureVec),
      predict_growth_risk pw lg o? inp = .success r c a fv →
      a = isAnomalyFlag c fv.z_score_weight fv.z_score_height) := by
  have hiff : ∀ confidence zw zh : ℚ, isAnomalyFlag confidence zw zh = true ↔
      (confidence < 0.6 ∨ 3 < |zh| ∨ 3 < |zw|) := by
    intro cf zw zh
    simp only [isAnomalyFlag, Bool.or_eq_true, decide_eq_true_eq]
    tauto
  refine ⟨hiff, ?_, ?_, ?_, ?_⟩
  · intro cf zw zh hc
    exact (hiff cf zw zh).mpr (Or.inl hc)
  · intro cf zw zh hc
    exact (hiff cf zw zh).mpr (Or.inr (Or.inl hc))
  · intro cf zw zh hc
    exact (hiff cf zw zh).mpr (Or.inr (Or.inr hc))
  · intro pw lg o? inp r c a fv h
    exact (predictCore_ok_inv pw lg o? inp r c a fv
      (predict_success_inv pw lg o? inp r c a fv h)).1

theorem C3_anomaly_rule_witness :
    ((1 / 2 : ℚ) < 0.6 ∧ isAnomalyFlag (1 / 2) 0 0 = true) ∧
    predict_growth_risk qpow log0 (some oracleEx) inputEx =
      .success "normal" (7/10) false fvEx ∧
    false = isAnomalyFlag (7/10) fvEx.z_score_weight fvEx.z_score_height := by
  have hrun : predict_growth_risk qpow log0 (some oracleEx) inputEx =
      .success "normal" (7/10) false fvEx := by
    with_unfolding_all rfl
  exact ⟨⟨by norm_num, C3_anomaly_rule.2.1 (1 / 2) 0 0 (by norm_num)⟩, hrun,
    C3_anomaly_rule.2.2.2.2 qpow log0 (some oracleEx) inputEx "normal"
      (7/10) false fvEx hrun⟩

/-- **C6** (evaluating the code at the failing input): height absent but
both standardized scores supplied directly.  The function's own docstring
(utils.py lines 196-197) declares height/weight "optional if z-scores
provided", and the spec requires classification to succeed on the supplied
score; the unconditional check at line 264 instead rejects the input with
an error result. -/
theorem C6_missing_height_with_z_fails :
    predict_growth_risk qpow log0 (some oracleEx)
      ⟨12, "male", none, some 9.8, some 1, some 1⟩ =
    .error "Both height_cm and weight_kg are required for prediction" := by
  with_unfolding_all rfl

/-- **C10**: `predict_growth_risk` is total at its interface: every result
is either a success dict (status `"success"`) or an error dict (status
`"error"`) carrying the error message instead of a risk verdict; no
exception escapes (the embedding's outer handler converts every internal
`Except.error` into the error dict, and the function is total). -/
theorem C10_interface_total (pw : ℚ → ℚ → ℚ) (lg : ℚ → ℚ)
    (o? : Option ModelOracle) (inp : PredictInput) :
    (∃ rs cf an fv, predict_growth_risk pw lg o? inp = .success rs cf an fv ∧
      (predict_growth_risk pw lg o? inp).status = "success") ∨
    (∃ m, predict_growth_risk pw lg o? inp = .error m ∧
      (predict_growth_risk pw lg o? inp).status = "error") := by
  cases hp : predict_growth_risk pw lg o? inp with
  | success rs cf an fv => exact Or.inl ⟨rs, cf, an, fv, rfl, rfl⟩
  | error m => exact Or.inr ⟨m, rfl, rfl⟩

/-- One row of the WHO-standards dataset consumed by `GrowthPredictor`
(the columns of `child_growth_0_60_months_synthetic.csv`). -/
structure WhoRow where
  ageMonths : ℤ
  gender : String
  weight_kg : ℚ
  weight_sd : ℚ
  height_cm : ℚ
  height_sd : ℚ

/-- `get_status` (predict_growth.py lines 26-33). -/
def get_status (z : ℚ) : String :=
  if |z| ≤ 2 then "normal" else if z < -2 then "low" else "high"

/-- The mean/SD record returned by `get_who_standards` (lines 78-83). -/
structure WhoStd where
  height_mean : ℚ
  height_sd : ℚ
  weight_mean : ℚ
  weight_sd : ℚ

/-- `'M' if gender.lower() == 'male' else 'F'` (line 57). -/
def whoGenderCode (gender : String) : String :=
  if pyLower gender = "male" then "M" else "F"

/-- The exact (age, gender) row filter (lines 60-63). -/
def whoExact (table : List WhoRow) (age : ℤ) (gc : String) : List WhoRow :=
  table.filter (fun r => r.ageMonths == age && r.gender == gc)

/-- The nearest-age fallback (lines 66-70): among the gender's rows, the
row minimizing `|AgeMonths − age|` (`argsort(...)[:1]`; with the
one-row-per-age modelled table no distinct rows tie, and `numpy`'s tie
order among equal-valued rows is irrelevant to every theorem below). -/
def whoFallback (table : List WhoRow) (age : ℤ) (gc : String) : List WhoRow :=
  match pyMinBy (fun r => (r.ageMonths - age).natAbs)
      (table.filter (fun r => r.gender == gc)) with
  | some row => [row]
  | none => []

/-- Lines 60-70: exact match if any, else the nearest-age fallback. -/
def whoStandards (table : List WhoRow) (age : ℤ) (gc : String) :
    List WhoRow :=
  if (whoExact table age gc).length = 0 then whoFallback table age gc
  else whoExact table age gc

/-- `GrowthPredictor.get_who_standards` (lines 45-83, chart branch
omitted): raises (`.error`) only when no row at all is selected, i.e. when
the dataset has no rows for the gender; SDs are clamped below by 0.1
(lines 80, 82). -/
def get_who_standards (table : List WhoRow) (age : ℤ) (gender : String) :
    Except String WhoStd :=
  match whoStandards table age (whoGenderCode gender) with
  | [] => .error "No WHO standards found"
  | row :: _ =>
    .ok ⟨row.height_cm, max row.height_sd (1/10), row.weight_kg,
      max row.weight_sd (1/10)⟩

/-- The dictionary returned by `GrowthPredictor.predict` (the chart-data
fields omitted; the `current_data` sub-dict is the three `current_*`
fields). -/
structure TrajResult where
  predicted_height : ℚ
  predicted_weight : ℚ
  height_z : Option ℚ
  weight_z : Option ℚ
  height_status : String
  weight_status : String
  next_month_age : ℤ
  current_age : ℤ
  current_height : ℚ
  current_weight : ℚ
  error : Option String

/-- `GrowthPredictor.predict` (lines 129-214): the wrapped regressor's
output is the parameter pair `(predicted_height, predicted_weight)`; the
2-decimal display rounding of the returned numbers is omitted (the source
also derives the statuses from the unrounded scores, lines 155-160).  The
`except` branch (lines 197-214) produces the `unknown`/`None` result. -/
def growth_predict (table : List WhoRow)
    (predicted_height predicted_weight : ℚ) (age : ℤ) (gender : String)
    (height_cm weight_kg : ℚ) : TrajResult :=
  match get_who_standards table (age + 1) gender with
  | .ok std =>
    { predicted_height := predicted_height
      predicted_weight := predicted_weight
      height_z := some ((predicted_height - std.height_mean) / std.height_sd)
      weight_z := some ((predicted_weight - std.weight_mean) / std.weight_sd)
      height_status :=
        get_status ((predicted_height - std.height_mean) / std.height_sd)
      weight_status :=
        get_status ((predicted_weight - std.weight_mean) / std.weight_sd)
      next_month_age := age + 1
      current_age := age
      current_height := height_cm
      current_weight := weight_kg
      error := none }
  | .error e =>
    { predicted_height := predicted_height
      predicted_weight := predicted_weight
      height_z := none
      weight_z := none
      height_status := "unknown"
      weight_status := "unknown"
      next_month_age := age + 1
      current_age := age
      current_height := height_cm
      current_weight := weight_kg
      error := some e }

/-- Modelled from the spec: the dataset
`child_growth_0_60_months_synthetic.csv` is a generated artifact absent
from the repository; per the spec the reference data covers ages 0-60 in
whole months for each sex.  The generator's deterministic median and SD
formulas (`generate_growth_data.py` lines 16-32 and 53-55) are used for
the row values; the per-row random variation and display rounding are
omitted (no theorem below depends on the exact values of a row, only on
which ages are present and on the deterministic SD/median columns). -/
def whoMedianWeight (gc : String) (a : ℤ) : ℚ :=
  if gc = "M" then 3.3 + 0.25 * a - 0.0005 * a ^ 2
  else 3.2 + 0.23 * a - 0.0004 * a ^ 2

/-- Modelled from the spec: the generator's median height curve. -/
def whoMedianHeight (gc : String) (a : ℤ) : ℚ :=
  if gc = "M" then 50 + 0.9 * a - 0.001 * a ^ 2
  else 49 + 0.87 * a - 0.0009 * a ^ 2

/-- Modelled from the spec: one dataset row at the median for an age and
gender code. -/
def whoRowOf (gc : String) (a : ℤ) : WhoRow :=
  ⟨a, gc, whoMedianWeight gc a, 0.15 * whoMedianWeight gc a,
    whoMedianHeight gc a, 0.04 * whoMedianHeight gc a⟩

/-- Modelled from the spec: the full dataset, ages 0-60 for each gender. -/
def whoTable : List WhoRow :=
  ((List.range 61).map fun n => whoRowOf "M" (n : ℤ)) ++
    ((List.range 61).map fun n => whoRowOf "F" (n : ℤ))

theorem get_who_standards_ok (table : List WhoRow) (age : ℤ) (g : String)
    (hne : table.filter (fun r => r.gender == whoGenderCode g) ≠ []) :
    ∃ std, get_who_standards table age g = .ok std := by
  rw [get_who_standards]
  cases hstd : whoStandards table age (whoGenderCode g) with
  | cons row rest => exact ⟨_, rfl⟩
  | nil =>
    exfalso
    rw [whoStandards] at hstd
    split at hstd
    · rw [whoFallback] at hstd
      cases hfil : table.filter (fun r => r.gender == whoGenderCode g) with
      | nil => exact hne hfil
      | cons a l =>
        rw [hfil, pyMinBy] at hstd
        cases hstd
    · next hlen => exact hlen (by rw [hstd]; rfl)

set_option maxRecDepth 8000

/-- **C9 counterexample**: at age 60 the projected next age 61 lies
outside the table's covered range (every band is ≤ 60), yet the claim's
consequent fails: the projection classifies against the nearest in-range
band (60), so the statuses are `"high"`/`"normal"`, not `"unknown"`, and
the standardized scores are not null. -/
theorem C9_counterexample :
    (∀ r ∈ whoTable, r.ageMonths ≤ 60) ∧
    (growth_predict whoTable 110 18 60 "male" 100 16).next_month_age = 61 ∧
    (growth_predict whoTable 110 18 60 "male" 100 16).height_status =
      "high" ∧
    (growth_predict whoTable 110 18 60 "male" 100 16).weight_status =
      "normal" ∧
    (∃ z, (growth_predict whoTable 110 18 60 "male" 100 16).height_z =
      some z) ∧
    (∃ z, (growth_predict whoTable 110 18 60 "male" 100 16).weight_z =
      some z) := by
  refine ⟨by decide, by with_unfolding_all rfl, by with_unfolding_all rfl,
    by with_unfolding_all rfl, ⟨_, by with_unfolding_all rfl⟩,
    ⟨_, by with_unfolding_all rfl⟩⟩

/-- **C9 amended**: `predict` never raises and always returns the
predicted height and weight and `next_month_age = age + 1`; but a next age
outside the covered range does *not* degrade to `unknown`/null — whenever
the dataset has at least one row for the subject's gender (any age), the
nearest-band fallback selects an in-range band and the statuses are
computed from it (`normal`/`low`/`high`), with non-null standardized
scores.  The `unknown`/null result occurs only when no row for the gender
exists at all. -/
theorem C9_projection_degrades_only_without_gender_rows :
    (∀ (table : List WhoRow) (ph pw0 : ℚ) (age : ℤ) (g : String) (h w : ℚ),
      (∃ r ∈ table, r.gender = whoGenderCode g) →
      ∃ z1 z2,
        (growth_predict table ph pw0 age g h w).height_z = some z1 ∧
        (growth_predict table ph pw0 age g h w).weight_z = some z2 ∧
        (growth_predict table ph pw0 age g h w).height_status =
          get_status z1 ∧
        (growth_predict table ph pw0 age g h w).weight_status =
          get_status z2) ∧
    (∀ z : ℚ, get_status z = "normal" ∨ get_status z = "low" ∨
      get_status z = "high") ∧
    (∀ z : ℚ, get_status z ≠ "unknown") ∧
    (∀ (table : List WhoRow) (ph pw0 : ℚ) (age : ℤ) (g : String) (h w : ℚ),
      (growth_predict table ph pw0 age g h w).predicted_height = ph ∧
      (growth_predict table ph pw0 age g h w).predicted_weight = pw0 ∧
      (growth_predict table ph pw0 age g h w).next_month_age = age + 1) := by
  have hcases : ∀ z : ℚ, get_status z = "normal" ∨ get_status z = "low" ∨
      get_status z = "high" := by
    intro z
    rw [get_status]
    split_ifs <;> tauto
  refine ⟨?_, hcases, ?_, ?_⟩
  · intro table ph pw0 age g h w ⟨r, hr, hg⟩
    have hfil : table.filter (fun r => r.gender == whoGenderCode g) ≠ [] := by
      intro hnil
      rw [List.filter_eq_nil_iff] at hnil
      exact hnil r hr (by simp [hg])
    obtain ⟨std, hstd⟩ := get_who_standards_ok table (age + 1) g hfil
    refine ⟨(ph - std.height_mean) / std.height_sd,
      (pw0 - std.weight_mean) / std.weight_sd, ?_, ?_, ?_, ?_⟩ <;>
      simp [growth_predict, hstd]
  · intro z
    rcases hcases z with h | h | h <;> simp [h]
  · intro table ph pw0 age g h w
    rw [growth_predict]
    cases get_who_standards table (age + 1) g <;> exact ⟨rfl, rfl, rfl⟩

theorem C9_projection_degrades_witness :
    (∃ r ∈ whoTable, r.gender = whoGenderCode "male") ∧
    (∃ z1 z2,
      (growth_predict whoTable 110 18 60 "male" 100 16).height_z =
        some z1 ∧
      (growth_predict whoTable 110 18 60 "male" 100 16).weight_z =
        some z2 ∧
      (growth_predict whoTable 110 18 60 "male" 100 16).height_status =
        get_status z1 ∧
      (growth_predict whoTable 110 18 60 "male" 100 16).weight_status =
        get_status z2) ∧
    (get_status 0 = "normal" ∨ get_status 0 = "low" ∨
      get_status 0 = "high") := by
  have hmem : ∃ r ∈ whoTable, r.gender = whoGenderCode "male" :=
    ⟨whoRowOf "M" 0,
      List.mem_append.mpr (Or.inl (List.mem_map.mpr
        ⟨0, by decide, rfl⟩)), rfl⟩
  exact ⟨hmem,
    C9_projection_degrades_only_without_gender_rows.1 whoTable 110 18 60
      "male" 100 16 hmem,
    C9_projection_degrades_only_without_gender_rows.2.1 0⟩

end Growth
